import Mathlib

/-!
# NeighbourBetBE — verification of the request lifecycle and proximity index

Shallow embedding of the NeighbourBetBE backend:

* the `Request` mongoose model (`src/models/Request.js`): schema defaults for
  `priority`/`expiresAt`, and the two `pre('save')` hooks (auto-expiry and
  max-acceptors);
* the request routes (`POST /:id/accept`, `DELETE /:id/accept`,
  `POST /` creation defaults);
* the `ProximityService` (grid-cell index over Redis, haversine distance,
  3x3 neighborhood scan with MongoDB fallback, atomic location migration).

Machine integers / floats are modelled as `Int` (epoch milliseconds), `Rat`
(stored coordinates) and `Real` (trigonometric distance computation).
Mongoose `ObjectId`s are modelled as `Nat`.
-/

namespace NeighbourBet

/-! ## Request data model (src/models/Request.js) -/

/-- The `status` enum of the request schema. -/
inductive ReqStatus
  | active
  | accepted
  | completed
  | expired
  | cancelled
deriving DecidableEq, Repr

/-- The `type` enum of the request schema. -/
inductive ReqType
  | emergency
  | help
  | social
deriving DecidableEq, Repr

/-- The `priority` enum of the request schema. -/
inductive Priority
  | low
  | medium
  | high
  | emergency
deriving DecidableEq, Repr

/-- The `acceptedBy[].status` enum of the request schema. -/
inductive AccStatus
  | pending
  | confirmed
  | completed
  | cancelled
deriving DecidableEq, Repr

/-- The `responses[].responseType` enum of the request schema. -/
inductive RespType
  | accept
  | decline
  | question
deriving DecidableEq, Repr

/-- One entry of the `acceptedBy` array. -/
structure Acceptance where
  user : Nat
  acceptedAt : Int
  status : AccStatus
deriving DecidableEq, Repr

/-- One entry of the `responses` array (message contents are opaque). -/
structure ResponseRec where
  user : Nat
  message : Nat
  responseType : RespType
deriving DecidableEq, Repr

/-- The request document fields relevant to the lifecycle claims.
Times are epoch milliseconds (`Int`), ids are `Nat`. -/
structure Request where
  requester : Nat
  reqType : ReqType
  status : ReqStatus
  maxAcceptors : Nat
  acceptedBy : List Acceptance
  responses : List ResponseRec
  expiresAt : Int
  priority : Priority
  completedAt : Option Int
  rating : Option Nat
deriving DecidableEq, Repr

/-- The two `requestSchema.pre('save')` hooks, run in registration order on
every save: first auto-expiry (`expiresAt < new Date() && status === 'active'`
sets `'expired'`), then the max-acceptors hook
(`acceptedBy.length >= maxAcceptors && status === 'active'` sets `'accepted'`). -/
def preSaveHooks (now : Int) (r : Request) : Request :=
  let r1 := if r.expiresAt < now ∧ r.status = ReqStatus.active
    then { r with status := ReqStatus.expired } else r
  if r1.maxAcceptors ≤ r1.acceptedBy.length ∧ r1.status = ReqStatus.active
    then { r1 with status := ReqStatus.accepted } else r1

/-- Request construction with the schema defaults of `src/models/Request.js`:
`status` defaults to `'active'`, `priority` defaults to
`type === 'emergency' ? 'emergency' : 'medium'` (a mongoose default, so an
explicitly supplied value overrides it), and `expiresAt` defaults to
`Date.now() + (type === 'emergency' ? 4 : 24) * 60 * 60 * 1000`. -/
def mkRequest (requester : Nat) (ty : ReqType) (priorityOverride : Option Priority)
    (maxAcceptors : Nat) (t0 : Int) : Request :=
  { requester := requester
    reqType := ty
    status := ReqStatus.active
    maxAcceptors := maxAcceptors
    acceptedBy := []
    responses := []
    expiresAt := t0 + (if ty = ReqType.emergency then 4 else 24) * 60 * 60 * 1000
    priority := priorityOverride.getD
      (if ty = ReqType.emergency then Priority.emergency else Priority.medium)
    completedAt := none
    rating := none }

/-- Outcome reported by `POST /api/requests/:id/accept` (the `NotFound` case is
factored out: the embedding operates on a document that was found). -/
inductive AcceptOutcome
  | ok
  | selfAcceptance
  | notActive
  | alreadyAccepted
  | capacityReached
deriving DecidableEq, Repr

/-- The `POST /api/requests/:id/accept` handler body (`routes/requests` file),
acting on the fetched document `r` at time `now`.  Guards in source order:
self-acceptance, `status !== 'active'`, already-accepted
(`acceptedBy.some(a => a.user === uid)`), capacity
(`acceptedBy.length >= maxAcceptors`).  On success it pushes
`{user, acceptedAt: now}` (entry status defaults to `'pending'`), optionally
pushes a response, and saves — which runs both pre-save hooks.
Error returns happen before any mutation, so the document is returned
unchanged there. -/
def acceptRoute (r : Request) (uid : Nat) (now : Int) (msg : Option Nat) :
    AcceptOutcome × Request :=
  if uid = r.requester then (AcceptOutcome.selfAcceptance, r)
  else if r.status ≠ ReqStatus.active then (AcceptOutcome.notActive, r)
  else if ∃ a ∈ r.acceptedBy, a.user = uid then (AcceptOutcome.alreadyAccepted, r)
  else if r.maxAcceptors ≤ r.acceptedBy.length then (AcceptOutcome.capacityReached, r)
  else
    let pushed : Request :=
      { r with
        acceptedBy := r.acceptedBy ++ [⟨uid, now, AccStatus.pending⟩]
        responses := match msg with
          | some m => r.responses ++ [⟨uid, m, RespType.accept⟩]
          | none => r.responses }
    (AcceptOutcome.ok, preSaveHooks now pushed)

/-- A sequence of accept calls against one request document, each applied to
the state left by the previous one (per-document atomicity: the route's
read-check-push-save is one step). -/
def acceptMany (r : Request) (calls : List (Nat × Int × Option Nat)) : Request :=
  calls.foldl (fun acc c => (acceptRoute acc c.1 c.2.1 c.2.2).2) r

/-- Capacity/status invariant of a request document: the `acceptedBy` array
never exceeds `maxAcceptors`, and a full request is never `'active'`. -/
def reqInv (r : Request) : Prop :=
  r.acceptedBy.length ≤ r.maxAcceptors ∧
    (r.acceptedBy.length = r.maxAcceptors → r.status ≠ ReqStatus.active)

instance (r : Request) : Decidable (reqInv r) := by
  unfold reqInv; infer_instance

/-- Result of the `DELETE /api/requests/:id/accept` handler: the HTTP status
it responds with, the saved document, and the caller's updated
`stats.requestsAccepted` counters. -/
structure CancelResult where
  httpStatus : Nat
  request : Request
  stats : Nat → Int

/-- The `DELETE /api/requests/:id/accept` handler body on a found document:
filters the caller out of `acceptedBy`, saves (running both pre-save hooks),
unconditionally applies `$inc: {'stats.requestsAccepted': -1}` to the caller,
and responds 200 — no status/membership precondition is checked. -/
def cancelAcceptanceRoute (r : Request) (stats : Nat → Int) (uid : Nat) (now : Int) :
    CancelResult :=
  { httpStatus := 200
    request := preSaveHooks now
      { r with acceptedBy := r.acceptedBy.filter (fun a => decide (a.user ≠ uid)) }
    stats := fun v => if v = uid then stats v - 1 else stats v }

/-! ## Distance evaluator (getDistanceInKm in the proximity service) -/

/-- JavaScript `Math.atan2(y, x)` on finite reals (signed zeros are not
distinguishable in `Real`, so the `x = 0, y = 0` family collapses to `0`). -/
noncomputable def atan2 (y x : Real) : Real :=
  if 0 < x then Real.arctan (y / x)
  else if x < 0 ∧ 0 ≤ y then Real.arctan (y / x) + Real.pi
  else if x < 0 ∧ y < 0 then Real.arctan (y / x) - Real.pi
  else if x = 0 ∧ 0 < y then Real.pi / 2
  else if x = 0 ∧ y < 0 then -(Real.pi / 2)
  else 0

/-- The intermediate `a` of `getDistanceInKm`:
`sin(dLat/2)^2 + cos(lat1*pi/180) * cos(lat2*pi/180) * sin(dLon/2)^2`
with `dLat = (lat2-lat1)*(pi/180)`, `dLon = (lon2-lon1)*(pi/180)`. -/
noncomputable def haversineA (lat1 lon1 lat2 lon2 : Real) : Real :=
  Real.sin ((lat2 - lat1) * (Real.pi / 180) / 2) *
      Real.sin ((lat2 - lat1) * (Real.pi / 180) / 2) +
    Real.cos (lat1 * (Real.pi / 180)) * Real.cos (lat2 * (Real.pi / 180)) *
      Real.sin ((lon2 - lon1) * (Real.pi / 180) / 2) *
      Real.sin ((lon2 - lon1) * (Real.pi / 180) / 2)

/-- The function `getDistanceInKm(lat1, lon1, lat2, lon2)` of the proximity service:
haversine distance, `R = 6371` km, `c = 2 * atan2(sqrt(a), sqrt(1-a))`,
returning `R * c`. -/
noncomputable def getDistanceInKm (lat1 lon1 lat2 lon2 : Real) : Real :=
  6371 * (2 * atan2 (Real.sqrt (haversineA lat1 lon1 lat2 lon2))
    (Real.sqrt (1 - haversineA lat1 lon1 lat2 lon2)))

/-! ## Grid index and proximity query engine (ProximityService) -/

/-- The constant `CELL_SIZE_DEGREES = 0.01`. -/
def cellSize : Rat := 0.01

/-- The method `getCellId(latitude, longitude)`: the cell key is
`cell:${floor(longitude / S)}:${floor(latitude / S)}`; the
`(cellX, cellY)` integer pair determines the key string injectively, so cells
are modelled by that pair. -/
def cellOf (lat lon : Rat) : Int × Int :=
  (⌊lon / cellSize⌋, ⌊lat / cellSize⌋)

/-- State of the Redis store backing the grid index.
Each cell hash maps field `userId` to the stored string value; a stored value
parses (`split(',').map(Number)`) either to a coordinate pair (`some (lat, lon)`)
or to NaN components (`none`, a malformed value).  `failing` injects an
`hGetAll` exception for a cell (store error); `userCell` is the
`user:${userId} -> cellId` reverse lookup. -/
structure GridState where
  isOpen : Bool
  failing : Int × Int → Bool
  cells : Int × Int → List (Nat × Option (Rat × Rat))
  userCell : Nat → Option (Int × Int)

/-- The call `redisClient.hGetAll(cellId)`: returns the cell hash, or throws. -/
def hGetAll (st : GridState) (c : Int × Int) :
    Except Unit (List (Nat × Option (Rat × Rat))) :=
  if st.failing c then Except.error () else Except.ok (st.cells c)

/-- The method `updateUserLocation(userId, latitude, longitude)`: no-op when the client
is closed; otherwise reads the reverse lookup and runs one MULTI transaction:
`hDel(oldCell, userId)` when an old cell exists and differs from the new cell,
`hSet(newCell, userId, "lat,lon")`, `set(userKey, newCell)` — all applied
atomically. -/
def updateUserLocation (st : GridState) (u : Nat) (lat lon : Rat) : GridState :=
  if st.isOpen = false then st
  else
    let newCell := cellOf lat lon
    let old := st.userCell u
    { st with
      cells := fun c =>
        if c = newCell then
          (st.cells c).filter (fun e => decide (e.1 ≠ u)) ++ [(u, some (lat, lon))]
        else if old = some c then (st.cells c).filter (fun e => decide (e.1 ≠ u))
        else st.cells c
      userCell := fun v => if v = u then some newCell else st.userCell v }

/-- User `u` has a field in the hash of cell `c`. -/
def memberIn (u : Nat) (c : Int × Int) (st : GridState) : Prop :=
  ∃ v, (u, v) ∈ st.cells c

/-- The 9 cells visited by `findNearbyUsers`' double loop
(`x` from `cx-1` to `cx+1` outer, `y` inner). -/
def neighborhoodCells (cx cy : Int) : List (Int × Int) :=
  [(cx - 1, cy - 1), (cx - 1, cy), (cx - 1, cy + 1),
   (cx, cy - 1), (cx, cy), (cx, cy + 1),
   (cx + 1, cy - 1), (cx + 1, cy), (cx + 1, cy + 1)]

/-- The scan loop's reads: `hGetAll` each cell in order, concatenating the
entries; a throw aborts the scan (later cells are not read) and is surfaced
as the `error` case for the surrounding `catch`.  Returns the list of cells
actually read together with the outcome. -/
def gatherEntries (st : GridState) :
    List (Int × Int) → List (Int × Int) × Except Unit (List (Nat × Option (Rat × Rat)))
  | [] => ([], Except.ok [])
  | c :: rest =>
    match hGetAll st c with
    | Except.error e => ([c], Except.error e)
    | Except.ok l =>
      let next := gatherEntries st rest
      (c :: next.1,
        match next.2 with
        | Except.error e => Except.error e
        | Except.ok ls => Except.ok (l ++ ls))

/-- The body of the scan's distance check on one hash entry:
`distance <= radiusKm` where `distance = getDistanceInKm(origin, parsed)`.
A malformed stored value parses to NaN coordinates, the distance is NaN and
every NaN comparison is false in JavaScript, so such an entry is never
included — modelled as `False`. -/
def includedEntry (lat lon r : Rat) : Nat × Option (Rat × Rat) → Prop
  | (_, some p) =>
      getDistanceInKm (lat : Real) (lon : Real) (p.1 : Real) (p.2 : Real) ≤ (r : Real)
  | (_, none) => False

/-- The `nearbyUserIds` set accumulated by the scan, as a duplicate-free list
(`Set` semantics; first-insertion order is irrelevant to the claims). -/
noncomputable def nearbyIds (lat lon r : Rat)
    (entries : List (Nat × Option (Rat × Rat))) : List Nat :=
  (((entries.filter fun e => @decide (includedEntry lat lon r e)
      (Classical.propDecidable _)).map fun e => e.1).dedup)

/-- The MongoDB queries `findNearbyUsers` can issue: the authoritative
geo-radius query (`User.findNearby` / the inline `$near` query of the catch
branch, both filtered to active location-sharing users), and the id-resolution
query `User.find({_id: {$in: ids}, isActive: true, 'settings.locationSharing': true})`. -/
inductive DbCall
  | geo
  | resolve
deriving DecidableEq, Repr

/-- The MongoDB environment: results of the two query shapes. -/
structure DbEnv where
  geoNearby : Rat → Rat → Rat → List Nat
  resolveIds : List Nat → List Nat

/-- Observable outcome of one `findNearbyUsers` call: the returned user list,
the MongoDB queries issued, and the cells read from Redis. -/
structure NearbyOutcome where
  result : List Nat
  dbCalls : List DbCall
  cellReads : List (Int × Int)
deriving DecidableEq, Repr

/-- The method `findNearbyUsers(latitude, longitude, radiusKm)`:
if the Redis client is not open, fall back directly to the authoritative
geo query; otherwise scan the 3x3 neighborhood of
`(floor(longitude/S), floor(latitude/S))`, collecting ids whose stored
position is within `radiusKm`; an exception during the scan is caught and
answered by the authoritative geo query; an empty id set returns `[]` with
no MongoDB query; otherwise the ids are resolved by the id-lookup query. -/
noncomputable def findNearbyUsers (st : GridState) (db : DbEnv) (lat lon r : Rat) :
    NearbyOutcome :=
  if st.isOpen = false then
    { result := db.geoNearby lat lon r, dbCalls := [DbCall.geo], cellReads := [] }
  else
    match (gatherEntries st
        (neighborhoodCells (⌊lon / cellSize⌋) (⌊lat / cellSize⌋))).2 with
    | Except.error _ =>
      { result := db.geoNearby lat lon r, dbCalls := [DbCall.geo],
        cellReads := (gatherEntries st
          (neighborhoodCells (⌊lon / cellSize⌋) (⌊lat / cellSize⌋))).1 }
    | Except.ok entries =>
      if nearbyIds lat lon r entries = [] then
        { result := [], dbCalls := [],
          cellReads := (gatherEntries st
            (neighborhoodCells (⌊lon / cellSize⌋) (⌊lat / cellSize⌋))).1 }
      else
        { result := db.resolveIds (nearbyIds lat lon r entries),
          dbCalls := [DbCall.resolve],
          cellReads := (gatherEntries st
            (neighborhoodCells (⌊lon / cellSize⌋) (⌊lat / cellSize⌋))).1 }

/-! ## Helper lemmas on the save hooks and the accept route -/

theorem preSaveHooks_acceptedBy (now : Int) (r : Request) :
    (preSaveHooks now r).acceptedBy = r.acceptedBy := by
  simp only [preSaveHooks]
  split <;> split <;> rfl

theorem preSaveHooks_maxAcceptors (now : Int) (r : Request) :
    (preSaveHooks now r).maxAcceptors = r.maxAcceptors := by
  simp only [preSaveHooks]
  split <;> split <;> rfl

theorem preSaveHooks_of_not_active (now : Int) (r : Request)
    (h : r.status ≠ ReqStatus.active) : preSaveHooks now r = r := by
  simp only [preSaveHooks]
  rw [if_neg (by simp [h]), if_neg (by simp [h])]

theorem preSaveHooks_of_active (now : Int) (r : Request)
    (h : r.status = ReqStatus.active) :
    preSaveHooks now r =
      (if r.expiresAt < now then { r with status := ReqStatus.expired }
       else if r.maxAcceptors ≤ r.acceptedBy.length then
         { r with status := ReqStatus.accepted }
       else r) := by
  by_cases hx : r.expiresAt < now
  · simp [preSaveHooks, h, hx]
  · by_cases hm : r.maxAcceptors ≤ r.acceptedBy.length
    · simp [preSaveHooks, h, hx, hm]
    · simp [preSaveHooks, h, hx, hm]

theorem preSaveHooks_idem (now : Int) (r : Request) :
    preSaveHooks now (preSaveHooks now r) = preSaveHooks now r := by
  by_cases h : r.status = ReqStatus.active
  · rw [preSaveHooks_of_active now r h]
    by_cases hx : r.expiresAt < now
    · rw [if_pos hx, preSaveHooks_of_not_active _ _ (by simp)]
    · rw [if_neg hx]
      by_cases hm : r.maxAcceptors ≤ r.acceptedBy.length
      · rw [if_pos hm, preSaveHooks_of_not_active _ _ (by simp)]
      · rw [if_neg hm, preSaveHooks_of_active now r h, if_neg hx, if_neg hm]
  · rw [preSaveHooks_of_not_active now r h, preSaveHooks_of_not_active now r h]

theorem acceptRoute_ok_eq (r : Request) (uid : Nat) (now : Int) (msg : Option Nat)
    (hself : uid ≠ r.requester) (hact : r.status = ReqStatus.active)
    (hnew : ¬ ∃ a ∈ r.acceptedBy, a.user = uid)
    (hcap : r.acceptedBy.length < r.maxAcceptors) :
    acceptRoute r uid now msg =
      (AcceptOutcome.ok, preSaveHooks now
        { r with
          acceptedBy := r.acceptedBy ++ [⟨uid, now, AccStatus.pending⟩]
          responses := match msg with
            | some m => r.responses ++ [⟨uid, m, RespType.accept⟩]
            | none => r.responses }) := by
  unfold acceptRoute
  rw [if_neg hself, if_neg (by simp [hact]), if_neg hnew, if_neg (by omega)]

theorem accept_step_inv (r : Request) (uid : Nat) (now : Int) (msg : Option Nat)
    (h : reqInv r) : reqInv (acceptRoute r uid now msg).2 := by
  by_cases hself : uid = r.requester
  · unfold acceptRoute; rw [if_pos hself]; exact h
  · by_cases hact : r.status = ReqStatus.active
    · by_cases hnew : ∃ a ∈ r.acceptedBy, a.user = uid
      · unfold acceptRoute
        rw [if_neg hself, if_neg (by simp [hact]), if_pos hnew]
        exact h
      · by_cases hcap : r.acceptedBy.length < r.maxAcceptors
        · rw [acceptRoute_ok_eq r uid now msg hself hact hnew hcap]
          constructor
          · rw [preSaveHooks_acceptedBy, preSaveHooks_maxAcceptors]
            simp only [List.length_append, List.length_cons, List.length_nil]
            omega
          · intro hfull
            rw [preSaveHooks_acceptedBy, preSaveHooks_maxAcceptors] at hfull
            simp only [List.length_append, List.length_cons, List.length_nil] at hfull
            rw [preSaveHooks_of_active _ _ (by simp [hact])]
            by_cases hx : r.expiresAt < now
            · rw [if_pos hx]; simp
            · rw [if_neg hx, if_pos (by simp; omega)]; simp
        · unfold acceptRoute
          rw [if_neg hself, if_neg (by simp [hact]), if_neg hnew, if_pos (by omega)]
          exact h
    · unfold acceptRoute
      rw [if_neg hself, if_pos (by simp [hact])]
      exact h

/-! ## C6: creation defaults for expiresAt and priority -/

/-- C6: a request created at `t0` gets `expiresAt = t0 + 4h` (emergency) or
`t0 + 24h` (any other type), and `priority` defaults to `'emergency'` for
emergency requests and `'medium'` otherwise, unless an explicit priority
overrides the default; the initial status is `'active'`. -/
theorem request_creation_defaults (requester : Nat) (ty : ReqType)
    (ov : Option Priority) (k : Nat) (t0 : Int) :
    (ty = ReqType.emergency →
      (mkRequest requester ty ov k t0).expiresAt = t0 + 14400000 ∧
      (ov = none → (mkRequest requester ty ov k t0).priority = Priority.emergency)) ∧
    (ty ≠ ReqType.emergency →
      (mkRequest requester ty ov k t0).expiresAt = t0 + 86400000 ∧
      (ov = none → (mkRequest requester ty ov k t0).priority = Priority.medium)) ∧
    (∀ p, ov = some p → (mkRequest requester ty ov k t0).priority = p) ∧
    (mkRequest requester ty ov k t0).status = ReqStatus.active := by
  refine ⟨fun hty => ⟨?_, fun hov => ?_⟩, fun hty => ⟨?_, fun hov => ?_⟩,
    fun p hov => ?_, rfl⟩
  · simp [mkRequest, hty]
  · simp [mkRequest, hty, hov]
  · simp [mkRequest, hty]
  · simp [mkRequest, hty, hov]
  · simp [mkRequest, hov]

/-- Witness for C6 at concrete inputs: emergency at `t0 = 0` expires at
`14400000` ms (= 4h) with emergency priority; a help request expires at
`86400000` ms (= 24h). -/
theorem request_creation_defaults_witness :
    (mkRequest 1 ReqType.emergency none 3 0).expiresAt = 0 + 14400000 ∧
    (mkRequest 1 ReqType.emergency none 3 0).priority = Priority.emergency ∧
    (mkRequest 2 ReqType.help none 3 0).expiresAt = 0 + 86400000 :=
  ⟨((request_creation_defaults 1 ReqType.emergency none 3 0).1 rfl).1,
   ((request_creation_defaults 1 ReqType.emergency none 3 0).1 rfl).2 rfl,
   ((request_creation_defaults 2 ReqType.help none 3 0).2.1 (by decide)).1⟩

/-! ## C8: conflict errors of the accept route -/

/-- C8: on an active request, accept fails with `SelfAcceptance` when the
caller is the requester, with `AlreadyAccepted` when the caller already
appears in `acceptedBy`, and with `CapacityReached` when `acceptedBy` is
full (for a caller not already in it — the already-accepted guard fires
first in the source); each failure returns before any mutation, leaving the
document unchanged. -/
theorem accept_conflict_errors (r : Request) (uid : Nat) (now : Int) (msg : Option Nat)
    (hact : r.status = ReqStatus.active) :
    (uid = r.requester →
      acceptRoute r uid now msg = (AcceptOutcome.selfAcceptance, r)) ∧
    (uid ≠ r.requester → (∃ a ∈ r.acceptedBy, a.user = uid) →
      acceptRoute r uid now msg = (AcceptOutcome.alreadyAccepted, r)) ∧
    (uid ≠ r.requester → (¬ ∃ a ∈ r.acceptedBy, a.user = uid) →
      r.acceptedBy.length = r.maxAcceptors →
      acceptRoute r uid now msg = (AcceptOutcome.capacityReached, r)) := by
  refine ⟨fun hself => ?_, fun hself hmem => ?_, fun hself hmem hfull => ?_⟩ <;>
    unfold acceptRoute
  · rw [if_pos hself]
  · rw [if_neg hself, if_neg (by simp [hact]), if_pos hmem]
  · rw [if_neg hself, if_neg (by simp [hact]), if_neg hmem, if_pos (by omega)]

/-- Concrete request used by the C8 witness: active, capacity 1, already
accepted by user 6. -/
def fullActiveReq : Request :=
  { requester := 5
    reqType := ReqType.help
    status := ReqStatus.active
    maxAcceptors := 1
    acceptedBy := [⟨6, 1, AccStatus.pending⟩]
    responses := []
    expiresAt := 1000000000
    priority := Priority.medium
    completedAt := none
    rating := none }

/-- Witness for C8: the requester self-accepting yields `SelfAcceptance`,
the existing acceptor yields `AlreadyAccepted`, and a third user on the full
request yields `CapacityReached`, each leaving the document unchanged. -/
theorem accept_conflict_errors_witness :
    fullActiveReq.status = ReqStatus.active ∧
    acceptRoute fullActiveReq 5 2 none = (AcceptOutcome.selfAcceptance, fullActiveReq) ∧
    acceptRoute fullActiveReq 6 2 none = (AcceptOutcome.alreadyAccepted, fullActiveReq) ∧
    acceptRoute fullActiveReq 7 2 none = (AcceptOutcome.capacityReached, fullActiveReq) :=
  ⟨by decide,
   (accept_conflict_errors fullActiveReq 5 2 none (by decide)).1 (by decide),
   (accept_conflict_errors fullActiveReq 6 2 none (by decide)).2.1 (by decide)
     (by decide),
   (accept_conflict_errors fullActiveReq 7 2 none (by decide)).2.2 (by decide)
     (by decide) (by decide)⟩

/-! ## C1: capacity invariant and the acceptance transition -/

/-- Concrete request for the C1 counterexample: active, capacity 1, empty
`acceptedBy`, already past its `expiresAt = 5`, but not yet swept. -/
def staleActiveReq : Request :=
  { requester := 0
    reqType := ReqType.help
    status := ReqStatus.active
    maxAcceptors := 1
    acceptedBy := []
    responses := []
    expiresAt := 5
    priority := Priority.medium
    completedAt := none
    rating := none }

/-- Counterexample to C1 as stated: at `now = 10 > expiresAt` the k-th
(here first) acceptance is recorded (`accept` returns ok and `acceptedBy`
reaches `maxAcceptors`), yet the saved status is `'expired'`, not
`'accepted'` — the auto-expiry hook runs before the max-acceptors hook, so
the status does not become `'accepted'` exactly when the k-th acceptance is
recorded. -/
theorem kth_acceptance_on_expired_request_not_accepted :
    (acceptRoute staleActiveReq 1 10 none).1 = AcceptOutcome.ok ∧
    (acceptRoute staleActiveReq 1 10 none).2.acceptedBy.length =
      staleActiveReq.maxAcceptors ∧
    (acceptRoute staleActiveReq 1 10 none).2.status = ReqStatus.expired := by
  decide

/-- C1 (amended): along every sequence of accept calls, at most
`maxAcceptors` acceptance entries ever persist and a full request never
remains `'active'` after the accepting save; moreover a successful accept
ends with status `'accepted'` iff it is the one filling the last slot and the
request had not already passed `expiresAt` (in which case the expiry hook
stamps `'expired'` instead). -/
theorem capacity_invariant_and_acceptance_transition
    (r : Request) (calls : List (Nat × Int × Option Nat)) (h : reqInv r) :
    reqInv (acceptMany r calls) ∧
      (∀ uid now msg, (acceptRoute r uid now msg).1 = AcceptOutcome.ok →
        ((acceptRoute r uid now msg).2.status = ReqStatus.accepted ↔
          ((acceptRoute r uid now msg).2.acceptedBy.length = r.maxAcceptors ∧
            ¬ r.expiresAt < now))) := by
  constructor
  · induction calls generalizing r with
    | nil => exact h
    | cons c cs ih =>
      exact ih _ (accept_step_inv r c.1 c.2.1 c.2.2 h)
  · intro uid now msg hok
    by_cases hself : uid = r.requester
    · unfold acceptRoute at hok; rw [if_pos hself] at hok; simp at hok
    · by_cases hact : r.status = ReqStatus.active
      · by_cases hnew : ∃ a ∈ r.acceptedBy, a.user = uid
        · unfold acceptRoute at hok
          rw [if_neg hself, if_neg (by simp [hact]), if_pos hnew] at hok
          simp at hok
        · by_cases hcap : r.acceptedBy.length < r.maxAcceptors
          · rw [acceptRoute_ok_eq r uid now msg hself hact hnew hcap]
            rw [acceptRoute_ok_eq r uid now msg hself hact hnew hcap] at hok
            simp only
            rw [preSaveHooks_acceptedBy, preSaveHooks_of_active _ _ (by simp [hact])]
            by_cases hx : r.expiresAt < now
            · rw [if_pos hx]
              simp [hx]
            · rw [if_neg hx]
              by_cases hm : r.maxAcceptors ≤ r.acceptedBy.length + 1
              · rw [if_pos (by simpa using hm)]
                simp only [List.length_append, List.length_cons, List.length_nil]
                constructor
                · intro _; exact ⟨by omega, hx⟩
                · intro _; trivial
              · rw [if_neg (by simpa using hm)]
                simp only [List.length_append, List.length_cons, List.length_nil]
                constructor
                · intro habs; exact absurd habs (by simp [hact])
                · intro ⟨hlen, _⟩; omega
          · unfold acceptRoute at hok
            rw [if_neg hself, if_neg (by simp [hact]), if_neg hnew,
              if_pos (by omega)] at hok
            simp at hok
      · unfold acceptRoute at hok
        rw [if_neg hself, if_pos (by simp [hact])] at hok
        simp at hok

/-- Witness for C1 (amended): a fresh help request with capacity 2 satisfies
the invariant, and it still holds after three accept attempts (the third
bounces off the capacity guard). -/
theorem capacity_invariant_witness :
    reqInv (mkRequest 0 ReqType.help none 2 0) ∧
      (reqInv (acceptMany (mkRequest 0 ReqType.help none 2 0)
          [(1, 10, none), (2, 20, none), (3, 30, none)]) ∧
        (∀ uid now msg,
          (acceptRoute (mkRequest 0 ReqType.help none 2 0) uid now msg).1 =
            AcceptOutcome.ok →
          ((acceptRoute (mkRequest 0 ReqType.help none 2 0) uid now msg).2.status =
              ReqStatus.accepted ↔
            ((acceptRoute (mkRequest 0 ReqType.help none 2 0) uid now
                  msg).2.acceptedBy.length =
                (mkRequest 0 ReqType.help none 2 0).maxAcceptors ∧
              ¬ (mkRequest 0 ReqType.help none 2 0).expiresAt < now)))) :=
  ⟨by decide,
   capacity_invariant_and_acceptance_transition (mkRequest 0 ReqType.help none 2 0)
     [(1, 10, none), (2, 20, none), (3, 30, none)] (by decide)⟩

/-! ## C2: accept on a technically-expired, unswept request -/

/-- Concrete request for the C2 counterexample: active, capacity 3,
`expiresAt = 100` already elapsed at call time `now = 200`. -/
def staleActiveReq2 : Request :=
  { requester := 0
    reqType := ReqType.social
    status := ReqStatus.active
    maxAcceptors := 3
    acceptedBy := []
    responses := []
    expiresAt := 100
    priority := Priority.medium
    completedAt := none
    rating := none }

/-- Counterexample to C2 as stated: an accept call arriving after
`expiresAt` but before the sweep does NOT fail with `NotActive` — the route
only checks the stored status, which still reads `'active'` — and an
acceptance entry IS recorded; only afterwards does the save's expiry hook
flip the status to `'expired'`. -/
theorem expired_request_accept_succeeds :
    (acceptRoute staleActiveReq2 7 200 none).1 = AcceptOutcome.ok ∧
    (acceptRoute staleActiveReq2 7 200 none).2.acceptedBy =
      [⟨7, 200, AccStatus.pending⟩] ∧
    (acceptRoute staleActiveReq2 7 200 none).2.status = ReqStatus.expired := by
  decide

/-- C2 (amended): an otherwise-valid accept call arriving after `expiresAt`
has elapsed but before the sweep succeeds and records the acceptance entry;
the save's pre-hooks then set the status to `'expired'` (so the request
reads `'expired'` thereafter and never becomes `'accepted'`), rather than
the accept failing with `NotActive`. -/
theorem accept_after_expiry_records_and_expires
    (r : Request) (uid : Nat) (now : Int) (msg : Option Nat)
    (hact : r.status = ReqStatus.active) (hexp : r.expiresAt < now)
    (hself : uid ≠ r.requester) (hnew : ¬ ∃ a ∈ r.acceptedBy, a.user = uid)
    (hcap : r.acceptedBy.length < r.maxAcceptors) :
    (acceptRoute r uid now msg).1 = AcceptOutcome.ok ∧
    (acceptRoute r uid now msg).2.acceptedBy =
      r.acceptedBy ++ [⟨uid, now, AccStatus.pending⟩] ∧
    (acceptRoute r uid now msg).2.status = ReqStatus.expired := by
  rw [acceptRoute_ok_eq r uid now msg hself hact hnew hcap]
  refine ⟨rfl, ?_, ?_⟩
  · rw [preSaveHooks_acceptedBy]
  · rw [preSaveHooks_of_active _ _ (by simp [hact]), if_pos hexp]

/-- Witness for C2 (amended) at a concrete input: a social request created
at `t0 = 0` expires at `86400000`; user 3 accepting at `86400001` gets ok,
the entry lands in `acceptedBy`, and the stored status reads `'expired'`. -/
theorem accept_after_expiry_witness :
    (mkRequest 0 ReqType.social none 2 0).status = ReqStatus.active ∧
    (mkRequest 0 ReqType.social none 2 0).expiresAt < 86400001 ∧
    ((acceptRoute (mkRequest 0 ReqType.social none 2 0) 3 86400001 none).1 =
        AcceptOutcome.ok ∧
      (acceptRoute (mkRequest 0 ReqType.social none 2 0) 3 86400001 none).2.acceptedBy =
        (mkRequest 0 ReqType.social none 2 0).acceptedBy ++
          [⟨3, 86400001, AccStatus.pending⟩] ∧
      (acceptRoute (mkRequest 0 ReqType.social none 2 0) 3 86400001 none).2.status =
        ReqStatus.expired) :=
  ⟨by decide, by decide,
   accept_after_expiry_records_and_expires (mkRequest 0 ReqType.social none 2 0)
     3 86400001 none (by decide) (by decide) (by decide) (by decide) (by decide)⟩

/-! ## C9: cancelAcceptance removal, idempotence, no reopening -/

/-- C9: `DELETE /:id/accept` removes every acceptance entry of the calling
user (and only those), is idempotent on the request document (a second
identical call is a no-op), and never reverts an `'accepted'` status back to
`'active'` even though the removal frees a capacity slot — no code path sets
`'active'` and both save hooks only act on `'active'` documents. -/
theorem cancelAcceptance_removes_idempotent_no_reopen
    (r : Request) (stats : Nat → Int) (uid : Nat) (now : Int) :
    (cancelAcceptanceRoute r stats uid now).request.acceptedBy =
        r.acceptedBy.filter (fun a => decide (a.user ≠ uid)) ∧
    (∀ a ∈ (cancelAcceptanceRoute r stats uid now).request.acceptedBy, a.user ≠ uid) ∧
    (∀ stats2,
      (cancelAcceptanceRoute (cancelAcceptanceRoute r stats uid now).request stats2 uid
          now).request = (cancelAcceptanceRoute r stats uid now).request) ∧
    (r.status = ReqStatus.accepted →
      (cancelAcceptanceRoute r stats uid now).request.status = ReqStatus.accepted) := by
  refine ⟨?_, ?_, ?_, ?_⟩
  · simp [cancelAcceptanceRoute, preSaveHooks_acceptedBy]
  · intro a ha
    simp [cancelAcceptanceRoute, preSaveHooks_acceptedBy] at ha
    exact ha.2
  · intro stats2
    show preSaveHooks now _ = _
    simp only [cancelAcceptanceRoute]
    have hX : ((preSaveHooks now
        { r with acceptedBy :=
            r.acceptedBy.filter (fun a => decide (a.user ≠ uid)) }).acceptedBy).filter
          (fun a => decide (a.user ≠ uid)) =
        (preSaveHooks now
          { r with acceptedBy :=
              r.acceptedBy.filter (fun a => decide (a.user ≠ uid)) }).acceptedBy := by
      rw [preSaveHooks_acceptedBy]
      simp [List.filter_filter]
    rw [hX]
    exact preSaveHooks_idem now _
  · intro hacc
    show (preSaveHooks now _).status = _
    rw [preSaveHooks_of_not_active _ _ (by simp [hacc])]
    simp [hacc]

/-- Concrete accepted-and-full request used by the C9/C10 witnesses. -/
def acceptedFullReq : Request :=
  { requester := 0
    reqType := ReqType.help
    status := ReqStatus.accepted
    maxAcceptors := 2
    acceptedBy := [⟨1, 10, AccStatus.pending⟩, ⟨2, 20, AccStatus.pending⟩]
    responses := []
    expiresAt := 1000
    priority := Priority.medium
    completedAt := none
    rating := none }

/-- Witness for C9: cancelling user 1's acceptance on the full accepted
request removes exactly their entry, a repeat call is a no-op, and the
status stays `'accepted'`. -/
theorem cancelAcceptance_c9_witness :
    (cancelAcceptanceRoute acceptedFullReq (fun _ => 5) 1 50).request.acceptedBy =
        acceptedFullReq.acceptedBy.filter (fun a => decide (a.user ≠ 1)) ∧
    (∀ a ∈ (cancelAcceptanceRoute acceptedFullReq (fun _ => 5) 1 50).request.acceptedBy,
      a.user ≠ 1) ∧
    (∀ stats2,
      (cancelAcceptanceRoute
          (cancelAcceptanceRoute acceptedFullReq (fun _ => 5) 1 50).request stats2 1
          50).request =
        (cancelAcceptanceRoute acceptedFullReq (fun _ => 5) 1 50).request) ∧
    (acceptedFullReq.status = ReqStatus.accepted →
      (cancelAcceptanceRoute acceptedFullReq (fun _ => 5) 1 50).request.status =
        ReqStatus.accepted) :=
  cancelAcceptance_removes_idempotent_no_reopen acceptedFullReq (fun _ => 5) 1 50

/-! ## C10: cancelAcceptance has no precondition beyond existence -/

/-- C10: on any found request — whatever its status — the cancel-acceptance
route responds 200; when the caller has no matching acceptance entry the
`acceptedBy` array is left unchanged, while the caller's
`stats.requestsAccepted` counter is still decremented by the unconditional
`$inc`. -/
theorem cancelAcceptance_no_precondition
    (r : Request) (stats : Nat → Int) (uid : Nat) (now : Int)
    (h : ∀ a ∈ r.acceptedBy, a.user ≠ uid) :
    (cancelAcceptanceRoute r stats uid now).httpStatus = 200 ∧
    (cancelAcceptanceRoute r stats uid now).request.acceptedBy = r.acceptedBy ∧
    (cancelAcceptanceRoute r stats uid now).stats uid = stats uid - 1 := by
  refine ⟨rfl, ?_, by simp [cancelAcceptanceRoute]⟩
  show (preSaveHooks now _).acceptedBy = _
  rw [preSaveHooks_acceptedBy]
  rw [List.filter_eq_self.2]
  intro a ha
  simp [h a ha]

/-- Witness for C10: user 9 never accepted the (already terminal-status)
request, yet the route responds 200, leaves `acceptedBy` unchanged and still
decrements the caller's counter. -/
theorem cancelAcceptance_c10_witness :
    (∀ a ∈ acceptedFullReq.acceptedBy, a.user ≠ 9) ∧
    ((cancelAcceptanceRoute acceptedFullReq (fun _ => 5) 9 50).httpStatus = 200 ∧
      (cancelAcceptanceRoute acceptedFullReq (fun _ => 5) 9 50).request.acceptedBy =
        acceptedFullReq.acceptedBy ∧
      (cancelAcceptanceRoute acceptedFullReq (fun _ => 5) 9 50).stats 9 =
        (fun _ => (5 : Int)) 9 - 1) :=
  ⟨by decide,
   cancelAcceptance_no_precondition acceptedFullReq (fun _ => 5) 9 50 (by decide)⟩

/-! ## C5: the distance evaluator is the haversine formula -/

theorem haversineA_self (lat lon : Real) : haversineA lat lon lat lon = 0 := by
  simp [haversineA]

theorem haversineA_symm (lat1 lon1 lat2 lon2 : Real) :
    haversineA lat2 lon2 lat1 lon1 = haversineA lat1 lon1 lat2 lon2 := by
  unfold haversineA
  have h1 : (lat1 - lat2) * (Real.pi / 180) / 2 = -((lat2 - lat1) * (Real.pi / 180) / 2) := by
    ring
  have h2 : (lon1 - lon2) * (Real.pi / 180) / 2 = -((lon2 - lon1) * (Real.pi / 180) / 2) := by
    ring
  rw [h1, h2, Real.sin_neg, Real.sin_neg]
  ring

/-- C5: `getDistanceInKm` is the haversine formula with Earth radius 6371 km
(`R * c` with `c = 2 * atan2(sqrt a, sqrt(1-a))`), it is a pure function of
its two positions (a Lean function by construction), it vanishes on equal
positions, and it is symmetric in its two positions. -/
theorem getDistanceInKm_haversine_properties (lat1 lon1 lat2 lon2 : Real) :
    getDistanceInKm lat1 lon1 lat2 lon2 =
      6371 * (2 * atan2 (Real.sqrt (haversineA lat1 lon1 lat2 lon2))
        (Real.sqrt (1 - haversineA lat1 lon1 lat2 lon2))) ∧
    getDistanceInKm lat1 lon1 lat1 lon1 = 0 ∧
    getDistanceInKm lat1 lon1 lat2 lon2 = getDistanceInKm lat2 lon2 lat1 lon1 := by
  refine ⟨rfl, ?_, ?_⟩
  · unfold getDistanceInKm
    rw [haversineA_self, Real.sqrt_zero, sub_zero, Real.sqrt_one]
    have h0 : atan2 0 1 = 0 := by
      unfold atan2
      rw [if_pos one_pos]
      simp [Real.arctan_zero]
    rw [h0]
    ring
  · unfold getDistanceInKm
    rw [haversineA_symm lat1 lon1 lat2 lon2]

/-! ## C7: atomic cell migration keeps a user in exactly one cell -/

theorem updateUserLocation_isOpen (st : GridState) (u : Nat) (lat lon : Rat) :
    (updateUserLocation st u lat lon).isOpen = st.isOpen := by
  unfold updateUserLocation
  split <;> rfl

theorem updateUserLocation_userCell (st : GridState) (u : Nat) (lat lon : Rat)
    (h : st.isOpen = true) :
    (updateUserLocation st u lat lon).userCell u = some (cellOf lat lon) := by
  simp [updateUserLocation, h]

theorem updateUserLocation_memberIn (st : GridState) (u : Nat) (lat lon : Rat)
    (c : Int × Int) (h : st.isOpen = true) :
    memberIn u c (updateUserLocation st u lat lon) ↔
      (c = cellOf lat lon ∨
        (c ≠ cellOf lat lon ∧ st.userCell u ≠ some c ∧ memberIn u c st)) := by
  unfold memberIn updateUserLocation
  rw [if_neg (by simp [h])]
  simp only
  by_cases hc : c = cellOf lat lon
  · rw [if_pos hc]
    constructor
    · intro _; exact Or.inl hc
    · intro _; exact ⟨some (lat, lon), by simp⟩
  · rw [if_neg hc]
    by_cases hold : st.userCell u = some c
    · rw [if_pos hold]
      simp [List.mem_filter, hc, hold]
    · rw [if_neg hold]
      simp [memberIn, hc, hold]

/-- C7: starting from any grid state in which user `u`'s cell memberships
are consistent with the reverse lookup, running `updateUserLocation` for two
positions in different cells leaves `u` a member of exactly the second
position's cell — never both — with the reverse-lookup entry equal to that
cell; after the first update `u` likewise sits only in the first cell, so at
no observable point is `u` in two cells. -/
theorem upsert_migration_unique_cell (st : GridState) (u : Nat)
    (lat1 lon1 lat2 lon2 : Rat)
    (hopen : st.isOpen = true)
    (_hdiff : cellOf lat1 lon1 ≠ cellOf lat2 lon2)
    (hinv : ∀ c, memberIn u c st → st.userCell u = some c) :
    memberIn u (cellOf lat2 lon2)
        (updateUserLocation (updateUserLocation st u lat1 lon1) u lat2 lon2) ∧
    (∀ c, c ≠ cellOf lat2 lon2 →
      ¬ memberIn u c
        (updateUserLocation (updateUserLocation st u lat1 lon1) u lat2 lon2)) ∧
    (updateUserLocation (updateUserLocation st u lat1 lon1) u lat2 lon2).userCell u =
        some (cellOf lat2 lon2) ∧
    (∀ c, c ≠ cellOf lat1 lon1 → ¬ memberIn u c (updateUserLocation st u lat1 lon1)) := by
  have hopen1 : (updateUserLocation st u lat1 lon1).isOpen = true := by
    rw [updateUserLocation_isOpen]; exact hopen
  have hmem1 : ∀ c, memberIn u c (updateUserLocation st u lat1 lon1) ↔
      c = cellOf lat1 lon1 := by
    intro c
    rw [updateUserLocation_memberIn st u lat1 lon1 c hopen]
    constructor
    · rintro (h | ⟨_, hnc, hm⟩)
      · exact h
      · exact absurd (hinv c hm) hnc
    · intro h; exact Or.inl h
  have hcell1 : (updateUserLocation st u lat1 lon1).userCell u =
      some (cellOf lat1 lon1) :=
    updateUserLocation_userCell st u lat1 lon1 hopen
  refine ⟨?_, ?_, ?_, ?_⟩
  · rw [updateUserLocation_memberIn _ u lat2 lon2 _ hopen1]
    exact Or.inl rfl
  · intro c hc
    rw [updateUserLocation_memberIn _ u lat2 lon2 _ hopen1]
    rintro (h | ⟨_, hnc, hm⟩)
    · exact hc h
    · rw [hmem1 c] at hm
      rw [hcell1] at hnc
      exact hnc (by rw [hm])
  · exact updateUserLocation_userCell _ u lat2 lon2 hopen1
  · intro c hc
    rw [hmem1 c]
    exact hc

/-- The empty, healthy grid used by the C3/C7 witnesses. -/
def emptyGrid : GridState :=
  { isOpen := true
    failing := fun _ => false
    cells := fun _ => []
    userCell := fun _ => none }

/-- Witness for C7 at concrete positions: user 4 reports `(0, 0)` (cell
`(0,0)`) and then `(0.05, 0.05)` (cell `(5,5)`); afterwards user 4 is in cell
`(5,5)` only, and the reverse lookup says so. -/
theorem upsert_migration_witness :
    emptyGrid.isOpen = true ∧
    cellOf 0 0 ≠ cellOf (1/20) (1/20) ∧
    (memberIn 4 (cellOf (1/20) (1/20))
        (updateUserLocation (updateUserLocation emptyGrid 4 0 0) 4 (1/20) (1/20)) ∧
      (∀ c, c ≠ cellOf (1/20) (1/20) →
        ¬ memberIn 4 c
          (updateUserLocation (updateUserLocation emptyGrid 4 0 0) 4 (1/20) (1/20))) ∧
      (updateUserLocation (updateUserLocation emptyGrid 4 0 0) 4
            (1/20) (1/20)).userCell 4 =
          some (cellOf (1/20) (1/20)) ∧
      (∀ c, c ≠ cellOf 0 0 → ¬ memberIn 4 c (updateUserLocation emptyGrid 4 0 0))) :=
  ⟨rfl, by norm_num [cellOf, cellSize, Prod.ext_iff],
   upsert_migration_unique_cell emptyGrid 4 0 0 (1/20) (1/20) rfl
     (by norm_num [cellOf, cellSize, Prod.ext_iff])
     (fun c hm => absurd hm (by simp [memberIn, emptyGrid]))⟩

/-! ## C3/C4: the 3x3 neighborhood scan and the fallback policy -/

theorem hGetAll_ok (st : GridState) (c : Int × Int)
    (l : List (Nat × Option (Rat × Rat))) (h : hGetAll st c = Except.ok l) :
    l = st.cells c := by
  unfold hGetAll at h
  by_cases hf : st.failing c = true
  · rw [if_pos hf] at h; simp at h
  · rw [if_neg hf] at h
    simp only [Except.ok.injEq] at h
    exact h.symm

theorem gatherEntries_reads_ok (st : GridState) (cells : List (Int × Int))
    (entries : List (Nat × Option (Rat × Rat)))
    (h : (gatherEntries st cells).2 = Except.ok entries) :
    (gatherEntries st cells).1 = cells := by
  induction cells generalizing entries with
  | nil => rfl
  | cons c rest ih =>
    unfold gatherEntries at h ⊢
    cases hg : hGetAll st c with
    | error e => rw [hg] at h; exact absurd h (by simp)
    | ok l =>
      rw [hg] at h
      replace h : (match (gatherEntries st rest).2 with
        | Except.error e => Except.error e
        | Except.ok ls => Except.ok (l ++ ls)) = Except.ok entries := h
      show c :: (gatherEntries st rest).1 = c :: rest
      cases hr : (gatherEntries st rest).2 with
      | error e => rw [hr] at h; exact absurd h (by simp)
      | ok ls => rw [ih ls hr]

theorem gatherEntries_mem (st : GridState) (cells : List (Int × Int))
    (entries : List (Nat × Option (Rat × Rat)))
    (h : (gatherEntries st cells).2 = Except.ok entries)
    (e : Nat × Option (Rat × Rat)) :
    e ∈ entries ↔ ∃ c ∈ cells, e ∈ st.cells c := by
  induction cells generalizing entries with
  | nil =>
    unfold gatherEntries at h
    simp only [Except.ok.injEq] at h
    subst h
    simp
  | cons c rest ih =>
    unfold gatherEntries at h
    cases hg : hGetAll st c with
    | error er => rw [hg] at h; exact absurd h (by simp)
    | ok l =>
      rw [hg] at h
      replace h : (match (gatherEntries st rest).2 with
        | Except.error er => Except.error er
        | Except.ok ls => Except.ok (l ++ ls)) = Except.ok entries := h
      cases hr : (gatherEntries st rest).2 with
      | error er => rw [hr] at h; exact absurd h (by simp)
      | ok ls =>
        rw [hr] at h
        simp only [Except.ok.injEq] at h
        subst h
        rw [hGetAll_ok st c l hg]
        simp [List.mem_append, List.exists_mem_cons_iff, ih ls hr]

theorem mem_nearbyIds (lat lon r : Rat) (entries : List (Nat × Option (Rat × Rat)))
    (u : Nat) :
    u ∈ nearbyIds lat lon r entries ↔
      ∃ v, (u, v) ∈ entries ∧ includedEntry lat lon r (u, v) := by
  unfold nearbyIds
  rw [List.mem_dedup]
  simp only [List.mem_map, List.mem_filter, decide_eq_true_eq]
  constructor
  · rintro ⟨e, ⟨he, hd⟩, hfst⟩
    cases e with
    | mk e1 e2 =>
      simp only at hfst
      subst hfst
      exact ⟨e2, he, hd⟩
  · rintro ⟨v, hmem, hinc⟩
    exact ⟨(u, v), ⟨hmem, hinc⟩, rfl⟩

theorem findNearbyUsers_ok (st : GridState) (db : DbEnv) (lat lon r : Rat)
    (entries : List (Nat × Option (Rat × Rat)))
    (hopen : st.isOpen = true)
    (hscan : (gatherEntries st
        (neighborhoodCells (⌊lon / cellSize⌋) (⌊lat / cellSize⌋))).2 =
      Except.ok entries) :
    findNearbyUsers st db lat lon r =
      (if nearbyIds lat lon r entries = [] then
        { result := [], dbCalls := [],
          cellReads := (gatherEntries st
            (neighborhoodCells (⌊lon / cellSize⌋) (⌊lat / cellSize⌋))).1 }
      else
        { result := db.resolveIds (nearbyIds lat lon r entries),
          dbCalls := [DbCall.resolve],
          cellReads := (gatherEntries st
            (neighborhoodCells (⌊lon / cellSize⌋) (⌊lat / cellSize⌋))).1 }) := by
  unfold findNearbyUsers
  rw [if_neg (by simp [hopen])]
  split
  · next heq => rw [hscan] at heq; simp at heq
  · next ls heq =>
    rw [hscan] at heq
    simp only [Except.ok.injEq] at heq
    subst heq
    rfl

/-- C3: when the Redis grid index is open and every `hGetAll` of the scan
succeeds, `findNearbyUsers` reads exactly the 3x3 block of cells centered on
`(floor(lon/S), floor(lat/S))`; a scanned member's id enters the id set iff
its stored value parses to a position whose haversine distance from the
origin is at most `radiusKm`; and an empty id set yields an empty result
with no MongoDB query at all (in particular none to the authoritative geo
store), while a non-empty one is answered via the id-resolution lookup. -/
theorem findNearby_scan_characterization (st : GridState) (db : DbEnv)
    (lat lon r : Rat) (entries : List (Nat × Option (Rat × Rat)))
    (hopen : st.isOpen = true)
    (hscan : (gatherEntries st
        (neighborhoodCells (⌊lon / cellSize⌋) (⌊lat / cellSize⌋))).2 =
      Except.ok entries) :
    (findNearbyUsers st db lat lon r).cellReads =
        neighborhoodCells (⌊lon / cellSize⌋) (⌊lat / cellSize⌋) ∧
    (∀ u, u ∈ nearbyIds lat lon r entries ↔
      ∃ c ∈ neighborhoodCells (⌊lon / cellSize⌋) (⌊lat / cellSize⌋),
        ∃ p, (u, some p) ∈ st.cells c ∧
          getDistanceInKm (lat : Real) (lon : Real) (p.1 : Real) (p.2 : Real) ≤
            (r : Real)) ∧
    (nearbyIds lat lon r entries = [] →
      findNearbyUsers st db lat lon r =
        { result := [], dbCalls := [],
          cellReads := neighborhoodCells (⌊lon / cellSize⌋) (⌊lat / cellSize⌋) }) ∧
    (nearbyIds lat lon r entries ≠ [] →
      (findNearbyUsers st db lat lon r).result =
          db.resolveIds (nearbyIds lat lon r entries) ∧
      (findNearbyUsers st db lat lon r).dbCalls = [DbCall.resolve]) := by
  have hreads := gatherEntries_reads_ok st
    (neighborhoodCells (⌊lon / cellSize⌋) (⌊lat / cellSize⌋)) entries hscan
  have hmain : findNearbyUsers st db lat lon r =
      (if nearbyIds lat lon r entries = [] then
        { result := [], dbCalls := [],
          cellReads := neighborhoodCells (⌊lon / cellSize⌋) (⌊lat / cellSize⌋) }
      else
        { result := db.resolveIds (nearbyIds lat lon r entries),
          dbCalls := [DbCall.resolve],
          cellReads := neighborhoodCells (⌊lon / cellSize⌋) (⌊lat / cellSize⌋) }) := by
    rw [findNearbyUsers_ok st db lat lon r entries hopen hscan, hreads]
  refine ⟨?_, ?_, ?_, ?_⟩
  · rw [hmain]
    by_cases hids : nearbyIds lat lon r entries = []
    · rw [if_pos hids]
    · rw [if_neg hids]
  · intro u
    rw [mem_nearbyIds]
    constructor
    · rintro ⟨v, hv, hinc⟩
      cases v with
      | none => exact absurd hinc (by simp [includedEntry])
      | some p =>
        obtain ⟨c, hc, hmem⟩ := (gatherEntries_mem st _ entries hscan (u, some p)).1 hv
        exact ⟨c, hc, p, hmem, hinc⟩
    · rintro ⟨c, hc, p, hmem, hd⟩
      exact ⟨some p, (gatherEntries_mem st _ entries hscan (u, some p)).2 ⟨c, hc, hmem⟩,
        hd⟩
  · intro hids
    rw [hmain, if_pos hids]
  · intro hids
    rw [hmain, if_neg hids]
    exact ⟨rfl, rfl⟩

/-- Concrete MongoDB environment for the proximity witnesses: the
authoritative geo query reports user 99; id resolution is the identity. -/
def dbSample : DbEnv :=
  { geoNearby := fun _ _ _ => [99]
    resolveIds := fun l => l }

/-- Witness for C3 at a concrete input: on the empty healthy grid with
origin `(0,0)` and radius 5, the scan reads the 9 neighborhood cells,
produces the empty id set, and the call returns `[]` without any MongoDB
query. -/
theorem findNearby_scan_witness :
    emptyGrid.isOpen = true ∧
    (gatherEntries emptyGrid
        (neighborhoodCells (⌊(0 : Rat) / cellSize⌋) (⌊(0 : Rat) / cellSize⌋))).2 =
      Except.ok [] ∧
    ((findNearbyUsers emptyGrid dbSample 0 0 5).cellReads =
        neighborhoodCells (⌊(0 : Rat) / cellSize⌋) (⌊(0 : Rat) / cellSize⌋) ∧
      (∀ u, u ∈ nearbyIds 0 0 5 [] ↔
        ∃ c ∈ neighborhoodCells (⌊(0 : Rat) / cellSize⌋) (⌊(0 : Rat) / cellSize⌋),
          ∃ p, (u, some p) ∈ emptyGrid.cells c ∧
            getDistanceInKm ((0 : Rat) : Real) ((0 : Rat) : Real) (p.1 : Real)
                (p.2 : Real) ≤ ((5 : Rat) : Real)) ∧
      (nearbyIds 0 0 5 [] = [] →
        findNearbyUsers emptyGrid dbSample 0 0 5 =
          { result := [], dbCalls := [],
            cellReads :=
              neighborhoodCells (⌊(0 : Rat) / cellSize⌋) (⌊(0 : Rat) / cellSize⌋) }) ∧
      (nearbyIds 0 0 5 [] ≠ [] →
        (findNearbyUsers emptyGrid dbSample 0 0 5).result =
            dbSample.resolveIds (nearbyIds 0 0 5 []) ∧
        (findNearbyUsers emptyGrid dbSample 0 0 5).dbCalls = [DbCall.resolve])) :=
  ⟨rfl, rfl, findNearby_scan_characterization emptyGrid dbSample 0 0 5 [] rfl rfl⟩

/-- Grid state with one malformed stored member value (a hash field whose
value does not parse to coordinates) in the origin cell. -/
def malformedGrid : GridState :=
  { isOpen := true
    failing := fun _ => false
    cells := fun c => if c = ((0 : Int), (0 : Int)) then [(7, none)] else []
    userCell := fun _ => none }

/-- Counterexample to C4 as stated: a malformed stored member value does NOT
cause an error or a fallback to the authoritative store — `split(',')` and
`Number` never throw, the NaN distance comparison is simply false — so the
member is silently skipped: the scan completes, returns `[]`, and issues no
MongoDB query, even though the authoritative store would have reported
user 99. -/
theorem malformed_member_no_fallback :
    (findNearbyUsers malformedGrid dbSample 0 0 5).result = [] ∧
    (findNearbyUsers malformedGrid dbSample 0 0 5).dbCalls = [] ∧
    dbSample.geoNearby 0 0 5 = [99] := by
  have h0 : (⌊(0 : Rat) / cellSize⌋ : Int) = 0 := by
    rw [zero_div]; exact Int.floor_zero
  have hscan : (gatherEntries malformedGrid (neighborhoodCells 0 0)).2 =
      Except.ok [(7, (none : Option (Rat × Rat)))] := by rfl
  have hdec : @decide (includedEntry 0 0 5 (7, none))
      (Classical.propDecidable _) = false := by
    rw [decide_eq_false_iff_not]
    simp [includedEntry]
  have hids : nearbyIds 0 0 5 [(7, (none : Option (Rat × Rat)))] = [] := by
    unfold nearbyIds
    rw [List.filter_cons, if_neg (by rw [hdec]; simp)]
    rfl
  have happ := findNearbyUsers_ok malformedGrid dbSample 0 0 5
    [(7, (none : Option (Rat × Rat)))] rfl (by rw [h0]; exact hscan)
  rw [hids, if_pos rfl] at happ
  rw [happ]
  exact ⟨rfl, rfl, rfl⟩

/-- C4 (amended): if the Redis client is not open, `findNearbyUsers`
delegates directly to the authoritative geo query and returns its result
as-is, reading no cells; if an `hGetAll` throws during the scan, the error
is caught (never propagated — the function still returns a value) and
answered by the authoritative geo query; but a malformed stored member
value raises no error and triggers no fallback: it is merely excluded from
the id set, which always consists of members with parseable positions. -/
theorem findNearby_fallback_behavior (st : GridState) (db : DbEnv) (lat lon r : Rat) :
    (st.isOpen = false →
      findNearbyUsers st db lat lon r =
        { result := db.geoNearby lat lon r, dbCalls := [DbCall.geo],
          cellReads := [] }) ∧
    (∀ e, st.isOpen = true →
      (gatherEntries st (neighborhoodCells (⌊lon / cellSize⌋) (⌊lat / cellSize⌋))).2 =
        Except.error e →
      findNearbyUsers st db lat lon r =
        { result := db.geoNearby lat lon r, dbCalls := [DbCall.geo],
          cellReads := (gatherEntries st
            (neighborhoodCells (⌊lon / cellSize⌋) (⌊lat / cellSize⌋))).1 }) ∧
    (∀ entries u, u ∈ nearbyIds lat lon r entries → ∃ p, (u, some p) ∈ entries) := by
  refine ⟨fun hclosed => ?_, fun e hopen herr => ?_, fun entries u hu => ?_⟩
  · unfold findNearbyUsers
    rw [if_pos hclosed]
  · unfold findNearbyUsers
    rw [if_neg (by simp [hopen])]
    split
    · next heq => rfl
    · next ls heq => rw [herr] at heq; simp at heq
  · obtain ⟨v, hv, hinc⟩ := (mem_nearbyIds lat lon r entries u).1 hu
    cases v with
    | none => exact absurd hinc (by simp [includedEntry])
    | some p => exact ⟨p, hv⟩

/-- Grid state whose origin cell read throws (Redis error injected). -/
def throwingGrid : GridState :=
  { isOpen := true
    failing := fun c => decide (c = ((0 : Int), (0 : Int)))
    cells := fun _ => []
    userCell := fun _ => none }

/-- Witness for C4 (amended) at concrete inputs: with the client closed the
call returns the authoritative geo result directly; with an injected store
error in the scanned block the call is answered by the authoritative geo
result instead of propagating. -/
theorem findNearby_fallback_witness :
    ({ emptyGrid with isOpen := false } : GridState).isOpen = false ∧
    (findNearbyUsers { emptyGrid with isOpen := false } dbSample 0 0 5 =
      { result := dbSample.geoNearby 0 0 5, dbCalls := [DbCall.geo],
        cellReads := [] }) ∧
    throwingGrid.isOpen = true ∧
    (gatherEntries throwingGrid
        (neighborhoodCells (⌊(0 : Rat) / cellSize⌋) (⌊(0 : Rat) / cellSize⌋))).2 =
      Except.error () ∧
    (findNearbyUsers throwingGrid dbSample 0 0 5 =
      { result := dbSample.geoNearby 0 0 5, dbCalls := [DbCall.geo],
        cellReads := (gatherEntries throwingGrid
          (neighborhoodCells (⌊(0 : Rat) / cellSize⌋) (⌊(0 : Rat) / cellSize⌋))).1 }) := by
  have h0 : (⌊(0 : Rat) / cellSize⌋ : Int) = 0 := by
    rw [zero_div]; exact Int.floor_zero
  have herr : (gatherEntries throwingGrid
      (neighborhoodCells (⌊(0 : Rat) / cellSize⌋) (⌊(0 : Rat) / cellSize⌋))).2 =
      Except.error () := by
    rw [h0]; rfl
  exact ⟨rfl,
    (findNearby_fallback_behavior { emptyGrid with isOpen := false } dbSample 0 0 5).1
      rfl,
    rfl, herr,
    (findNearby_fallback_behavior throwingGrid dbSample 0 0 5).2.1 () rfl herr⟩

end NeighbourBet
